import Mathlib

/-!
Verification of the `video-perception` action component

Shallow embedding of `src/video-perception.tsx`.

The component advertises a `mediaPerception` action over the attachments of a
conversation and implements a handler that resolves an attachment by id,
routes it to a perception backend by MIME type, invokes that backend, zips
the questions with the returned answers, commits the result into the
triggering message's args, and resumes the agent; malformed requests are
recovered by `retry()` (a bare `agent.act()`).

The external backend adapter (`describeJson` from `util/vision.mjs`, wrapped
by the spec's `describe` closure) is not part of `src/`; per the spec (§4.3,
§6) it is an opaque call `url × questions → answers-or-BackendError`, so the
embedding takes it as a function parameter `DescribeFn`. The agent persona
and the auth token are forwarded to it unmodified and influence nothing in
the core, so they are not carried in the model.

Side effects of the handler are modelled as an explicit event trace:
a `describeCall` event for the backend invocation, a `commitEv` event
carrying the message args at commit time, and an `actEv` event for each
`agent.act(...)` call (with its optional context message and options).
List order in the trace is execution order, since the handler is straight
sequential code awaiting each step.
-/

/-- An attachment of a conversation message: `{ id, type, url? }`.
`url` is optional in the source. -/
structure Attachment where
  id : String
  type : String
  url : Option String
deriving Repr, DecidableEq

/-- A conversation message; `attachments` may be absent (`undefined`). -/
structure Message where
  attachments : Option (List Attachment)
deriving Repr, DecidableEq

/-- A question/answer pair as built by `makeQa`; `a` is `answers[index]`,
which is `undefined` (here `none`) when `answers` is shorter. -/
structure QAPair where
  q : String
  a : Option String
deriving Repr, DecidableEq

/-- The args of the pending action message (`e.data.message.args`): the
request fields `{ id, questions }` from the action schema, plus the
`queries` field that the handler writes on success (absent before). -/
structure MessageArgs where
  id : String
  questions : List String
  queries : Option (List QAPair)
deriving Repr, DecidableEq

/-- The agent-issued request carried by the pending action message. -/
structure Request where
  id : String
  questions : List String
deriving Repr, DecidableEq

/-- The options object of `agent.act(ctx, { excludeActions })`. -/
structure ActOptions where
  excludeActions : List String
deriving Repr, DecidableEq

/-- The synthesized context message passed to `agent.act` on success:
the fixed header line plus `JSON.stringify({ attachmentId, ...qa })`
(spreading the array `qa` into the object yields its pairs under the
indices `0, 1, ...`, in order — modelled as the `pairs` list). -/
structure ContextMessage where
  header : String
  attachmentId : String
  pairs : List QAPair
deriving Repr, DecidableEq

/-- Observable side effects of one handler invocation, in execution order. -/
inductive Event where
  | describeCall (url : String) (questions : List String)
  | commitEv (args : MessageArgs)
  | actEv (ctx : Option ContextMessage) (opts : Option ActOptions)
deriving Repr, DecidableEq

/-- The backend adapter: `describe({url, questions, ...}) → answers`,
failing with a `BackendError` (modelled as the error string). -/
def DescribeFn : Type := String → List String → Except String (List String)

/-- A registered perception spec: `{ types, describe }`. -/
structure PerceptionSpec where
  types : List String
  describe : DescribeFn

/-- The static spec registry `videoPerceptionSpecs`: a single image spec
whose `describe` is the (external) image description adapter. -/
def videoPerceptionSpecs (describeImage : DescribeFn) : List PerceptionSpec :=
  [{ types := ["image/jpeg", "image/png", "image/webp"],
     describe := describeImage }]

/-- `supportedVideoPerceptionTypes = videoPerceptionSpecs.flatMap(spec => spec.types)`. -/
def supportedVideoPerceptionTypes (describeImage : DescribeFn) : List String :=
  (videoPerceptionSpecs describeImage).flatMap (fun spec => spec.types)

/-- The `type` prop of the advertised `<Action>` element. -/
def actionType : String := "mediaPerception"

/-- `attachment.type.replace(/\+[\s\S]*$/, '')`: the regex matches from the
first `+` to the end of the string, so this keeps the characters strictly
before the first `+` (the whole string when there is no `+`). -/
def stripTypeSuffix (t : String) : String :=
  String.mk (t.toList.takeWhile (fun c => c ≠ '+'))

/-- The availability filter of `VideoPerceptionInner`: keep the attachments
whose suffix-stripped type is a supported type. It is applied to the list
returned by `collectAttachments(messages)` (an external helper), so the
collected list is taken as the argument. -/
def filterAvailableAttachments (describeImage : DescribeFn)
    (attachments : List Attachment) : List Attachment :=
  attachments.filter (fun attachment =>
    (supportedVideoPerceptionTypes describeImage).contains
      (stripTypeSuffix attachment.type))

/-- The handler's inline attachment collection (lines 146–156): for each
message in order, if it has an `attachments` array, push its attachments in
order. (The `attachmentsToMessagesMap` WeakMap built alongside is never read
afterwards, so it is not modelled.) -/
def collectHandlerAttachments (messages : List Message) : List Attachment :=
  messages.flatMap (fun message => message.attachments.getD [])

/-- `makeQa`: `questions.map((q, index) => ({ q, a: answers[index] }))`. -/
def makeQa (questions : List String) (answers : List String) : List QAPair :=
  questions.enum.map (fun p => { q := p.2, a := answers.get? p.1 })

/-- `retry()` is `() => { agent.act(); }`: a single `agent.act` call with no
context message and no options. -/
def retry : List Event := [Event.actEv none none]

/-- The args of the pending action message before any mutation. -/
def initialArgs (req : Request) : MessageArgs :=
  { id := req.id, questions := req.questions, queries := none }

/-- The outcome of one handler invocation: its event trace, the final state
of `e.data.message.args`, and the propagated `BackendError` if any. -/
structure HandlerResult where
  events : List Event
  args : MessageArgs
  error : Option String
deriving Repr, DecidableEq

/-- The handler result on each of the malformed-request recovery paths. -/
def retryResult (req : Request) : HandlerResult :=
  { events := retry, args := initialArgs req, error := none }

/-- The header line of the synthesized resumption context message. -/
def contextHeader : String :=
  "Your character looked at an attachment and discovered the following:"

/-- The type-router lookup of the handler (line 180):
`videoPerceptionSpecs.find(spec => spec.types.includes(type))` —
an exact membership test on the raw (unstripped) type string. -/
def findPerceptionSpec (describeImage : DescribeFn) (type : String) :
    Option PerceptionSpec :=
  (videoPerceptionSpecs describeImage).find? (fun spec => spec.types.contains type)

/-- The action handler (lines 122–237). `if (url)` is JavaScript truthiness:
an absent url and the empty string both take the no-url retry path. -/
def handler (describeImage : DescribeFn) (messages : List Message)
    (req : Request) : HandlerResult :=
  let attachments := collectHandlerAttachments messages
  match attachments.find? (fun attachment => attachment.id == req.id) with
  | none => retryResult req
  | some attachment =>
    match attachment.url with
    | none => retryResult req
    | some url =>
      if url = "" then retryResult req
      else
        match findPerceptionSpec describeImage attachment.type with
        | none => retryResult req
        | some mediaPerceptionSpec =>
          match mediaPerceptionSpec.describe url req.questions with
          | Except.error e =>
            { events := [Event.describeCall url req.questions],
              args := initialArgs req,
              error := some e }
          | Except.ok answers =>
            let qa := makeQa req.questions answers
            let args' : MessageArgs :=
              { id := req.id, questions := req.questions, queries := some qa }
            { events :=
                [Event.describeCall url req.questions,
                 Event.commitEv args',
                 Event.actEv
                   (some { header := contextHeader,
                           attachmentId := attachment.id,
                           pairs := qa })
                   (some { excludeActions := [actionType] })],
              args := args',
              error := none }

/-! ## Basic lemmas -/

/-- Pointwise characterization of `makeQa`: entry `i` pairs `questions[i]`
with `answers[i]` (the latter possibly absent). -/
lemma makeQa_get? (qs as : List String) (i : Nat) :
    (makeQa qs as).get? i =
      (qs.get? i).map (fun q => { q := q, a := as.get? i }) := by
  simp [makeQa, List.get?_eq_getElem?, List.getElem?_map, List.getElem?_enum]
  cases qs[i]? <;> rfl

/-- `makeQa` always produces one pair per question. -/
lemma makeQa_length (qs as : List String) :
    (makeQa qs as).length = qs.length := by
  simp [makeQa]

/-! ## Claims -/

/-- C5: For equal-length question and answer lists, `makeQa` zips them
in input question order: the `i`-th pair is `{q := questions[i],
a := answers[i]}`; in particular on `["Q1","Q2"]` and `["A1","A2"]` it
returns `[{q:"Q1",a:"A1"}, {q:"Q2",a:"A2"}]`. -/
theorem makeQa_preserves_order (qs as : List String)
    (h : qs.length = as.length) :
    makeQa qs as = (qs.zip as).map (fun p => { q := p.1, a := some p.2 }) ∧
    makeQa ["Q1", "Q2"] ["A1", "A2"] =
      [{ q := "Q1", a := some "A1" }, { q := "Q2", a := some "A2" }] := by
  refine ⟨List.ext fun i => ?_, by decide⟩
  rcases Nat.lt_or_ge i qs.length with hi | hi
  · have hia : i < as.length := h ▸ hi
    have hiz : i < (qs.zip as).length := by
      simp [List.length_zip, hi, hia]
    rw [makeQa_get?, List.get?_map,
      List.get?_eq_get hi, List.get?_eq_get hia, List.get?_eq_get hiz]
    simp [List.get_zip]
  · have h1 : qs.get? i = none := List.get?_eq_none.mpr hi
    have h2 : ((qs.zip as).map
        (fun p => QAPair.mk p.1 (some p.2))).get? i = none := by
      refine List.get?_eq_none.mpr ?_
      simp [List.length_zip]
      exact Or.inl hi
    rw [makeQa_get?, h1, h2]
    rfl

/-- Malformed-request condition: the `attachmentId` matches no attachment,
or matches one with no url, or matches one whose type routes to no spec. -/
def MalformedRequest (describeImage : DescribeFn) (messages : List Message)
    (req : Request) : Prop :=
  (collectHandlerAttachments messages).find?
      (fun attachment => attachment.id == req.id) = none ∨
  ∃ attachment,
    (collectHandlerAttachments messages).find?
        (fun a => a.id == req.id) = some attachment ∧
    (attachment.url = none ∨
      findPerceptionSpec describeImage attachment.type = none)

/-- On every malformed-request branch the handler returns the retry result. -/
lemma handler_malformed_eq (describeImage : DescribeFn)
    (messages : List Message) (req : Request)
    (h : MalformedRequest describeImage messages req) :
    handler describeImage messages req = retryResult req := by
  rcases h with hfind | ⟨attachment, hfind, hbad⟩
  · simp [handler, hfind]
  · rcases hbad with hurl | hspec
    · simp [handler, hfind, hurl]
    · rcases hu : attachment.url with _ | u
      · simp [handler, hfind, hu]
      · by_cases he : u = "" <;> simp [handler, hfind, hu, he, hspec]

/-- Success-path shape: with the attachment resolved, a non-empty url, a
routed spec and a successful backend call, the handler emits exactly the
describe, commit and act events in that order, and mutates the args. -/
lemma handler_success_eq (describeImage : DescribeFn)
    (messages : List Message) (req : Request) (attachment : Attachment)
    (u : String) (spec : PerceptionSpec) (answers : List String)
    (hfind : (collectHandlerAttachments messages).find?
      (fun a => a.id == req.id) = some attachment)
    (hurl : attachment.url = some u) (hu : u ≠ "")
    (hspec : findPerceptionSpec describeImage attachment.type = some spec)
    (hdesc : spec.describe u req.questions = Except.ok answers) :
    handler describeImage messages req =
      { events :=
          [Event.describeCall u req.questions,
           Event.commitEv { id := req.id, questions := req.questions,
                            queries := some (makeQa req.questions answers) },
           Event.actEv
             (some { header := contextHeader,
                     attachmentId := attachment.id,
                     pairs := makeQa req.questions answers })
             (some { excludeActions := [actionType] })],
        args := { id := req.id, questions := req.questions,
                  queries := some (makeQa req.questions answers) },
        error := none } := by
  simp [handler, hfind, hurl, hu, hspec, hdesc]

/-- Backend-failure shape: same hypotheses but the backend fails; the
handler stops after the describe call and propagates the error. -/
lemma handler_backend_error_eq (describeImage : DescribeFn)
    (messages : List Message) (req : Request) (attachment : Attachment)
    (u : String) (spec : PerceptionSpec) (e : String)
    (hfind : (collectHandlerAttachments messages).find?
      (fun a => a.id == req.id) = some attachment)
    (hurl : attachment.url = some u) (hu : u ≠ "")
    (hspec : findPerceptionSpec describeImage attachment.type = some spec)
    (hdesc : spec.describe u req.questions = Except.error e) :
    handler describeImage messages req =
      { events := [Event.describeCall u req.questions],
        args := initialArgs req,
        error := some e } := by
  simp [handler, hfind, hurl, hu, hspec, hdesc]

/-- Recognizer for backend-invocation events. -/
def Event.isDescribe : Event → Bool
  | Event.describeCall _ _ => true
  | _ => false

/-- Recognizer for commit events. -/
def Event.isCommit : Event → Bool
  | Event.commitEv _ => true
  | _ => false

/-- Concrete backend used to instantiate the theorems: answers every
question list with a single fixed answer. -/
def exampleBackend : DescribeFn := fun _ _ => Except.ok ["A cat on a mat."]

/-- The attachment of the end-to-end scenario. -/
def exampleAttachment : Attachment :=
  { id := "a1", type := "image/png", url := some "http://x/1.png" }

/-- The conversation of the end-to-end scenario: one message with one
attachment. -/
def exampleMessages : List Message :=
  [{ attachments := some [exampleAttachment] }]

/-- The request of the end-to-end scenario. -/
def exampleRequest : Request :=
  { id := "a1", questions := ["Describe the image."] }

/-- The registered image spec, instantiated with `exampleBackend`. -/
def exampleSpec : PerceptionSpec :=
  { types := ["image/jpeg", "image/png", "image/webp"],
    describe := exampleBackend }

/-- C1: On every malformed request (unresolvable id, attachment with no
url, or no registered spec for the type) the handler calls `retry()`
exactly once — one `agent.act` with no arguments — calls neither the
backend describe function nor commit, and leaves the message args
unmutated. -/
theorem handler_malformed_retries_once (describeImage : DescribeFn)
    (messages : List Message) (req : Request)
    (h : MalformedRequest describeImage messages req) :
    handler describeImage messages req = retryResult req ∧
    (handler describeImage messages req).events.count
      (Event.actEv none none) = 1 ∧
    (handler describeImage messages req).events.countP Event.isDescribe = 0 ∧
    (handler describeImage messages req).events.countP Event.isCommit = 0 ∧
    (handler describeImage messages req).args = initialArgs req := by
  rw [handler_malformed_eq describeImage messages req h]
  exact ⟨rfl, rfl, rfl, rfl, rfl⟩

/-- Witness for C1: a request whose id matches no attachment of an empty
conversation. -/
theorem handler_malformed_retries_once_witness :
    handler exampleBackend [] exampleRequest = retryResult exampleRequest ∧
    (handler exampleBackend [] exampleRequest).events.count
      (Event.actEv none none) = 1 ∧
    (handler exampleBackend [] exampleRequest).events.countP
      Event.isDescribe = 0 ∧
    (handler exampleBackend [] exampleRequest).events.countP
      Event.isCommit = 0 ∧
    (handler exampleBackend [] exampleRequest).args =
      initialArgs exampleRequest :=
  handler_malformed_retries_once exampleBackend [] exampleRequest (Or.inl rfl)

/-- C2: On every successful invocation the trace is exactly
describe-then-commit-then-act, so the awaited `commit()` completes strictly
before `agent.act` is invoked. -/
theorem commit_awaited_before_act (describeImage : DescribeFn)
    (messages : List Message) (req : Request) (attachment : Attachment)
    (u : String) (spec : PerceptionSpec) (answers : List String)
    (hfind : (collectHandlerAttachments messages).find?
      (fun a => a.id == req.id) = some attachment)
    (hurl : attachment.url = some u) (hu : u ≠ "")
    (hspec : findPerceptionSpec describeImage attachment.type = some spec)
    (hdesc : spec.describe u req.questions = Except.ok answers) :
    (handler describeImage messages req).events =
      [Event.describeCall u req.questions,
       Event.commitEv { id := req.id, questions := req.questions,
                        queries := some (makeQa req.questions answers) },
       Event.actEv
         (some { header := contextHeader,
                 attachmentId := attachment.id,
                 pairs := makeQa req.questions answers })
         (some { excludeActions := [actionType] })] ∧
    (∃ i j, i < j ∧
      (∃ a, (handler describeImage messages req).events.get? i =
        some (Event.commitEv a)) ∧
      (∃ c o, (handler describeImage messages req).events.get? j =
        some (Event.actEv c o))) := by
  rw [handler_success_eq describeImage messages req attachment u spec answers
    hfind hurl hu hspec hdesc]
  exact ⟨rfl, 1, 2, Nat.one_lt_two, ⟨_, rfl⟩, ⟨_, _, rfl⟩⟩

/-- Witness for C2: the end-to-end scenario inputs. -/
theorem commit_awaited_before_act_witness :
    ∃ i j, i < j ∧
      (∃ a, (handler exampleBackend exampleMessages exampleRequest).events.get?
        i = some (Event.commitEv a)) ∧
      (∃ c o, (handler exampleBackend exampleMessages exampleRequest).events.get?
        j = some (Event.actEv c o)) :=
  (commit_awaited_before_act exampleBackend exampleMessages exampleRequest
    exampleAttachment "http://x/1.png" exampleSpec ["A cat on a mat."]
    rfl rfl (by decide) rfl rfl).2

/-- C3: On every successful invocation, the resumption `agent.act` call
carries options whose `excludeActions` contains `"mediaPerception"`, the
very action type that produced the invocation. -/
theorem resume_excludes_action_type (describeImage : DescribeFn)
    (messages : List Message) (req : Request) (attachment : Attachment)
    (u : String) (spec : PerceptionSpec) (answers : List String)
    (hfind : (collectHandlerAttachments messages).find?
      (fun a => a.id == req.id) = some attachment)
    (hurl : attachment.url = some u) (hu : u ≠ "")
    (hspec : findPerceptionSpec describeImage attachment.type = some spec)
    (hdesc : spec.describe u req.questions = Except.ok answers) :
    ∃ ctx opts,
      Event.actEv (some ctx) (some opts) ∈
        (handler describeImage messages req).events ∧
      actionType ∈ opts.excludeActions ∧
      actionType = "mediaPerception" := by
  rw [handler_success_eq describeImage messages req attachment u spec answers
    hfind hurl hu hspec hdesc]
  refine ⟨{ header := contextHeader, attachmentId := attachment.id,
            pairs := makeQa req.questions answers },
          { excludeActions := [actionType] }, ?_, ?_, rfl⟩
  · simp
  · simp

/-- Witness for C3: the end-to-end scenario inputs. -/
theorem resume_excludes_action_type_witness :
    ∃ ctx opts,
      Event.actEv (some ctx) (some opts) ∈
        (handler exampleBackend exampleMessages exampleRequest).events ∧
      actionType ∈ opts.excludeActions ∧
      actionType = "mediaPerception" :=
  resume_excludes_action_type exampleBackend exampleMessages exampleRequest
    exampleAttachment "http://x/1.png" exampleSpec ["A cat on a mat."]
    rfl rfl (by decide) rfl rfl

/-- C4: If the backend describe call fails, the error propagates out of
the handler uncaught — the trace stops at the describe call, with no commit,
no `agent.act` (neither resume nor retry), and no args mutation. -/
theorem backend_error_propagates (describeImage : DescribeFn)
    (messages : List Message) (req : Request) (attachment : Attachment)
    (u : String) (spec : PerceptionSpec) (e : String)
    (hfind : (collectHandlerAttachments messages).find?
      (fun a => a.id == req.id) = some attachment)
    (hurl : attachment.url = some u) (hu : u ≠ "")
    (hspec : findPerceptionSpec describeImage attachment.type = some spec)
    (hdesc : spec.describe u req.questions = Except.error e) :
    (handler describeImage messages req).error = some e ∧
    (handler describeImage messages req).events =
      [Event.describeCall u req.questions] ∧
    (handler describeImage messages req).events.countP Event.isCommit = 0 ∧
    (∀ c o, Event.actEv c o ∉ (handler describeImage messages req).events) ∧
    (handler describeImage messages req).args = initialArgs req := by
  rw [handler_backend_error_eq describeImage messages req attachment u spec e
    hfind hurl hu hspec hdesc]
  refine ⟨rfl, rfl, rfl, ?_, rfl⟩
  intro c o hmem
  simp at hmem

/-- Failing backend used to instantiate the backend-error theorem. -/
def exampleFailingBackend : DescribeFn := fun _ _ => Except.error "boom"

/-- The registered image spec, instantiated with the failing backend. -/
def exampleFailingSpec : PerceptionSpec :=
  { types := ["image/jpeg", "image/png", "image/webp"],
    describe := exampleFailingBackend }

/-- Witness for C4: the end-to-end conversation with a failing backend. -/
theorem backend_error_propagates_witness :
    (handler exampleFailingBackend exampleMessages exampleRequest).error =
      some "boom" ∧
    (handler exampleFailingBackend exampleMessages exampleRequest).events =
      [Event.describeCall "http://x/1.png" ["Describe the image."]] ∧
    (handler exampleFailingBackend exampleMessages exampleRequest).events.countP
      Event.isCommit = 0 ∧
    (∀ c o, Event.actEv c o ∉
      (handler exampleFailingBackend exampleMessages exampleRequest).events) ∧
    (handler exampleFailingBackend exampleMessages exampleRequest).args =
      initialArgs exampleRequest :=
  backend_error_propagates exampleFailingBackend exampleMessages exampleRequest
    exampleAttachment "http://x/1.png" exampleFailingSpec "boom"
    rfl rfl (by decide) rfl rfl

/-- C8: `retry()` is exactly one `agent.act` call with no contextual
message and no options, and it is the whole trace of every one of the three
malformed-request recovery branches. -/
theorem retry_no_context_no_options (describeImage : DescribeFn)
    (messages : List Message) (req : Request)
    (h : MalformedRequest describeImage messages req) :
    retry = [Event.actEv none none] ∧
    (handler describeImage messages req).events = retry := by
  refine ⟨rfl, ?_⟩
  rw [handler_malformed_eq describeImage messages req h]
  rfl

/-- Witness for C8: a request for an id absent from the conversation. -/
theorem retry_no_context_no_options_witness :
    retry = [Event.actEv none none] ∧
    (handler exampleBackend exampleMessages
      { id := "missing", questions := ["Describe the image."] }).events =
      retry :=
  retry_no_context_no_options exampleBackend exampleMessages
    { id := "missing", questions := ["Describe the image."] } (Or.inl rfl)

/-- Witness for C5: the two-question instance from the spec. -/
theorem makeQa_preserves_order_witness :
    makeQa ["Q1", "Q2"] ["A1", "A2"] =
      ((["Q1", "Q2"].zip ["A1", "A2"]).map
        fun p => { q := p.1, a := some p.2 }) ∧
    makeQa ["Q1", "Q2"] ["A1", "A2"] =
      [{ q := "Q1", a := some "A1" }, { q := "Q2", a := some "A2" }] :=
  makeQa_preserves_order ["Q1", "Q2"] ["A1", "A2"] rfl

/-- C9: `makeQa` is total on mismatched lengths: it always returns
exactly `questions.length` pairs (extra answers are dropped), pair `i`
carries `questions[i]` and `answers[i]`, and every pair at a position at or
beyond `answers.length` carries an absent answer; no error is raised. -/
theorem makeQa_total_on_mismatch (qs as : List String) :
    (makeQa qs as).length = qs.length ∧
    (∀ i, (makeQa qs as).get? i =
      (qs.get? i).map (fun q => { q := q, a := as.get? i })) ∧
    (∀ i, as.length ≤ i → (makeQa qs as).get? i =
      (qs.get? i).map (fun q => { q := q, a := none })) := by
  refine ⟨makeQa_length qs as, makeQa_get? qs as, ?_⟩
  intro i hi
  rw [makeQa_get?, List.get?_eq_none.mpr hi]

/-- Witness for C9: three questions against a single answer. -/
theorem makeQa_total_on_mismatch_witness :
    (makeQa ["Q1", "Q2", "Q3"] ["A1"]).length = 3 ∧
    (makeQa ["Q1", "Q2", "Q3"] ["A1"]).get? 2 =
      some { q := "Q3", a := none } := by
  refine ⟨?_, ?_⟩
  · rw [(makeQa_total_on_mismatch ["Q1", "Q2", "Q3"] ["A1"]).1]
    rfl
  · rw [(makeQa_total_on_mismatch ["Q1", "Q2", "Q3"] ["A1"]).2.2 2
      (by decide)]
    rfl

/-- The supported types of the single registered spec, independent of the
backend function. -/
lemma supported_types_eq (describeImage : DescribeFn) :
    supportedVideoPerceptionTypes describeImage =
      ["image/jpeg", "image/png", "image/webp"] := rfl

/-- C6: The availability listing strips the MIME parameter suffix
(everything from the first `+`) before testing membership in the supported
types: membership in the filtered list is decided by the stripped type, an
`image/jpeg+foo` attachment is stripped to `image/jpeg` and included, and
the filter returns the stored attachments themselves, original type string
intact. -/
theorem availability_strips_mime_suffix (describeImage : DescribeFn)
    (attachments : List Attachment) (att : Attachment)
    (hmem : att ∈ attachments) :
    (att ∈ filterAvailableAttachments describeImage attachments ↔
      stripTypeSuffix att.type ∈
        supportedVideoPerceptionTypes describeImage) ∧
    stripTypeSuffix "image/jpeg+foo" = "image/jpeg" ∧
    (att.type = "image/jpeg+foo" →
      att ∈ filterAvailableAttachments describeImage attachments) ∧
    (∀ b ∈ filterAvailableAttachments describeImage attachments,
      b ∈ attachments) := by
  have hiff : att ∈ filterAvailableAttachments describeImage attachments ↔
      stripTypeSuffix att.type ∈
        supportedVideoPerceptionTypes describeImage := by
    unfold filterAvailableAttachments
    rw [List.mem_filter]
    simp [hmem]
  refine ⟨hiff, by decide, ?_, ?_⟩
  · intro hty
    rw [hiff, hty, supported_types_eq]
    decide
  · intro b hb
    exact (List.mem_filter.mp hb).1

/-- An attachment whose type carries a `+` parameter suffix. -/
def exampleSuffixAttachment : Attachment :=
  { id := "a2", type := "image/jpeg+foo", url := some "http://x/2.jpg" }

/-- Witness for C6: the `image/jpeg+foo` attachment is advertised. -/
theorem availability_strips_mime_suffix_witness :
    exampleSuffixAttachment ∈
      filterAvailableAttachments exampleBackend [exampleSuffixAttachment] :=
  (availability_strips_mime_suffix exampleBackend [exampleSuffixAttachment]
    exampleSuffixAttachment (by simp)).2.2.1 rfl

/-- C7: End-to-end scenario: one message with attachment
`{id:"a1", type:"image/png", url:"http://x/1.png"}`, request
`{attachmentId:"a1", questions:["Describe the image."]}`, backend answering
`["A cat on a mat."]` — the committed args carry
`queries = [{q:"Describe the image.", a:"A cat on a mat."}]` and the
resumption call carries a context message with attachment id `"a1"` and
that pair, excluding `mediaPerception`. -/
theorem end_to_end_scenario :
    (handler exampleBackend exampleMessages exampleRequest).args.queries =
      some [{ q := "Describe the image.", a := some "A cat on a mat." }] ∧
    Event.commitEv
        { id := "a1", questions := ["Describe the image."],
          queries := some [{ q := "Describe the image.",
                             a := some "A cat on a mat." }] } ∈
      (handler exampleBackend exampleMessages exampleRequest).events ∧
    Event.actEv
        (some { header := contextHeader, attachmentId := "a1",
                pairs := [{ q := "Describe the image.",
                            a := some "A cat on a mat." }] })
        (some { excludeActions := ["mediaPerception"] }) ∈
      (handler exampleBackend exampleMessages exampleRequest).events := by
  decide

/-- In the registry, every supported type is free of `+` suffixes, so
stripping is the identity on it. -/
lemma supported_strip_fixed (describeImage : DescribeFn) :
    ∀ t ∈ supportedVideoPerceptionTypes describeImage,
      stripTypeSuffix t = t := by
  intro t ht
  rw [supported_types_eq] at ht
  simp only [List.mem_cons, List.not_mem_nil, or_false] at ht
  rcases ht with rfl | rfl | rfl <;> decide

/-- The handler's type router finds no spec for a type outside the
supported set. -/
lemma findPerceptionSpec_eq_none (describeImage : DescribeFn) (t : String)
    (h : t ∉ supportedVideoPerceptionTypes describeImage) :
    findPerceptionSpec describeImage t = none := by
  rw [supported_types_eq] at h
  simp only [List.mem_cons, List.not_mem_nil, or_false, not_or] at h
  obtain ⟨h1, h2, h3⟩ := h
  unfold findPerceptionSpec videoPerceptionSpecs
  simp [List.find?_cons, h1, h2, h3]

/-- C10: The handler routes on the raw type string without stripping:
any attachment whose type is a supported base type followed by a `+` suffix
passes the availability filter (it is advertised), yet a request resolving
to it finds no perception spec and takes the retry path, never calling the
backend. -/
theorem suffixed_type_advertised_but_unroutable (describeImage : DescribeFn)
    (messages : List Message) (req : Request)
    (attachments : List Attachment) (att : Attachment)
    (hmem : att ∈ attachments)
    (hbase : stripTypeSuffix att.type ∈
      supportedVideoPerceptionTypes describeImage)
    (hsuffix : stripTypeSuffix att.type ≠ att.type)
    (hfind : (collectHandlerAttachments messages).find?
      (fun a => a.id == req.id) = some att) :
    att ∈ filterAvailableAttachments describeImage attachments ∧
    findPerceptionSpec describeImage att.type = none ∧
    handler describeImage messages req = retryResult req ∧
    (handler describeImage messages req).events.countP Event.isDescribe = 0 := by
  have hnot : att.type ∉ supportedVideoPerceptionTypes describeImage :=
    fun hin => hsuffix (supported_strip_fixed describeImage att.type hin)
  have hspec : findPerceptionSpec describeImage att.type = none :=
    findPerceptionSpec_eq_none describeImage att.type hnot
  have hav : att ∈ filterAvailableAttachments describeImage attachments := by
    unfold filterAvailableAttachments
    rw [List.mem_filter]
    exact ⟨hmem, by simpa using hbase⟩
  have heq : handler describeImage messages req = retryResult req :=
    handler_malformed_eq describeImage messages req
      (Or.inr ⟨att, hfind, Or.inr hspec⟩)
  refine ⟨hav, hspec, heq, ?_⟩
  rw [heq]
  rfl

/-- A supported base type with a `+` suffix: advertised yet unroutable. -/
def exampleSuffixPngAttachment : Attachment :=
  { id := "a3", type := "image/png+ext", url := some "http://x/3.png" }

/-- Witness for C10: the `image/png+ext` attachment is advertised, but the
request for it takes the retry path. -/
theorem suffixed_type_advertised_but_unroutable_witness :
    exampleSuffixPngAttachment ∈
      filterAvailableAttachments exampleBackend [exampleSuffixPngAttachment] ∧
    handler exampleBackend [{ attachments := some [exampleSuffixPngAttachment] }]
        { id := "a3", questions := ["Describe the image."] } =
      retryResult { id := "a3", questions := ["Describe the image."] } := by
  have h := suffixed_type_advertised_but_unroutable exampleBackend
    [{ attachments := some [exampleSuffixPngAttachment] }]
    { id := "a3", questions := ["Describe the image."] }
    [exampleSuffixPngAttachment] exampleSuffixPngAttachment
    (by simp) (by decide) (by decide) rfl
  exact ⟨h.1, h.2.2.1⟩
